import Mathlib

/-!
Shallow embedding of the mitsuba-scene-description repository.

Covered source:
* `src/generator/generate_mitsuba_api.py` — the documentation-to-schema
  pipeline: `split_names`, `TYPE_RULES` / `map_type`, `normalize`, `camel`,
  and the class synthesis step `render_class` (including its inner `unique`
  helper and the shape-category `bsdf` injection blocks), together with the
  `Transform` builder and its `to_mi` composition loop from the emitted
  `utils` module.
* `src/mitsuba_scene_description/scene.py` — the runtime `Scene` /
  `SceneBuilder` model: `add_asset`, `SceneBuilder.asset`, `to_dict`.

Python strings are Lean `String`s (the documentation text is ASCII), Python
lists are Lean `List`s, Python dicts are insertion-ordered association lists
with Python's assignment semantics (update in place when the key exists,
append otherwise), Python floats are embedded as `ℚ`, and code that can
raise is embedded in `Except String`.
-/

namespace Msd

/-- ASCII reading of Python's regex word character class (the documentation
text this pipeline processes is ASCII): letters, digits and underscore. -/
def pyWordChar (c : Char) : Bool := c.isAlphanum || c == '_'

/-- Exact-case list-level "starts with" test. -/
def listStarts : List Char → List Char → Bool
  | [], _ => true
  | _ :: _, [] => false
  | a :: ns, b :: hs => a == b && listStarts ns hs

/-- Scan for `n` at every position of the haystack. -/
def subScan (n : List Char) : List Char → Bool
  | [] => listStarts n []
  | c :: t => listStarts n (c :: t) || subScan n t

/-- Python's `needle in hay` substring test. -/
def hasSub (hay needle : String) : Bool := subScan needle.data hay.data

/-- Python's `hay.startswith(needle)`. -/
def hasStart (hay needle : String) : Bool := listStarts needle.data hay.data

/-- Python `str.lower()` (ASCII inputs). -/
def pyLower (s : String) : String := String.mk (s.data.map Char.toLower)

/-- Python `str.strip()`: drop whitespace from both ends. -/
def pyStrip (s : String) : String :=
  String.mk (((s.data.dropWhile Char.isWhitespace).reverse.dropWhile
    Char.isWhitespace).reverse)

/-- Python `str.split(",")` helper: split on every comma, keeping empty
chunks; `cur` is the current chunk, reversed. -/
def splitCommaGo (cur : List Char) : List Char → List String
  | [] => [String.mk cur.reverse]
  | c :: cs =>
    if c == ',' then String.mk cur.reverse :: splitCommaGo [] cs
    else splitCommaGo (c :: cur) cs

/-- Python `str.split(",")`. -/
def splitComma (s : String) : List String := splitCommaGo [] s.data

/-- Python `str.replace` scan with a fuel argument for structural recursion;
the fuel starts at the text length and never runs out on those inputs (each
step consumes at least one character).  Empty patterns never occur here. -/
def replGo (pat repl : List Char) : Nat → List Char → List Char
  | _, [] => []
  | 0, l => l
  | fuel + 1, c :: cs =>
    if pat.isEmpty = false && listStarts pat (c :: cs) then
      repl ++ replGo pat repl fuel (cs.drop (pat.length - 1))
    else c :: replGo pat repl fuel cs

/-- Python `s.replace(pat, repl)` (left-to-right, non-overlapping). -/
def pyReplace (s pat repl : String) : String :=
  String.mk (replGo pat.data repl.data s.data.length s.data)

/-- Case-insensitive character equality (ASCII). -/
def lcEq (a b : Char) : Bool := a.toLower == b.toLower

/-- `wordAt w hay` : `w` matches at the start of `hay` (case-insensitively)
and the character right after the match, if any, is not a word character —
the trailing `\b` of the regex word patterns in `TYPE_RULES`. -/
def wordAt : List Char → List Char → Bool
  | [], [] => true
  | [], c :: _ => !pyWordChar c
  | a :: ws, c :: cs => lcEq a c && wordAt ws cs
  | _ :: _, [] => false

/-- A word boundary holds before the current position: at the start of the
text, or after a non-word character. -/
def boundaryOk : Option Char → Bool
  | none => true
  | some c => !pyWordChar c

/-- Scan the haystack for a whole-word occurrence of `w`; `prev` is the
character just before the current position (`none` at the start), providing
the leading `\b`. -/
def wordScan (w : List Char) : Option Char → List Char → Bool
  | prev, [] => boundaryOk prev && wordAt w []
  | prev, c :: cs => (boundaryOk prev && wordAt w (c :: cs)) || wordScan w (some c) cs

/-- Case-insensitive whole-word occurrence of `w` anywhere in `t` — the
meaning of `re.search` for the `\bword\b` patterns of `TYPE_RULES`. -/
def wordOccurs (w t : String) : Bool := wordScan w.data none t.data

/-- `TYPE_RULES` from the generator: ordered pattern rules, first match wins.
Each regex alternation `\ba\b|\bb\b` is embedded as a disjunction of
whole-word tests; `\bint(eger)?\b` matches exactly the whole words `int` and
`integer` (and similarly `bool(ean)?`). -/
def TYPE_RULES : List ((String → Bool) × String) :=
  [ (fun t => wordOccurs "float" t || wordOccurs "double" t || wordOccurs "scalar" t, "float"),
    (fun t => wordOccurs "int" t || wordOccurs "integer" t, "int"),
    (fun t => wordOccurs "bool" t || wordOccurs "boolean" t, "bool"),
    (fun t => wordOccurs "string" t || wordOccurs "filename" t || wordOccurs "path" t, "str"),
    (fun t => wordOccurs "rgb" t || wordOccurs "color" t, "List[float]"),
    (fun t => wordOccurs "spectrum" t, "Union[List[float], Plugin]"),
    (fun t => wordOccurs "transform" t, "Transform"),
    (fun t =>
      (["bsdf", "texture", "emitter", "shape", "sensor", "film", "sampler",
        "medium", "phase", "filter", "spectrum", "volume"].any
        fun w => wordOccurs w t), "Plugin") ]

/-- `map_type` from the generator: strip the text, try the rules in order,
first matching rule wins, fall back to `"Plugin"`. -/
def map_type (text : String) : String :=
  let t := pyStrip text
  match TYPE_RULES.find? (fun r => r.1 t) with
  | some r => r.2
  | none => "Plugin"

/-- `split_names` from the generator: split the raw parameter-name cell on
commas, strip each part, drop empties; fall back to the whole name when no
nonempty part remains. -/
def split_names (name : String) : List String :=
  let parts := ((splitComma name).map pyStrip).filter (fun p => p ≠ "")
  if parts.isEmpty then [name] else parts

/-- The Python reserved words guarded against in `normalize`. -/
def pyKeywords : List String := ["class", "def", "from", "import", "lambda"]

/-- Strip a character from both ends of a string (Python `str.strip("_")`). -/
def stripChar (c : Char) (s : String) : String :=
  String.mk (((s.data.dropWhile (· == c)).reverse.dropWhile (· == c)).reverse)

/-- Python's `n or "param"` fallback at the end of `normalize`. -/
def orParam (s : String) : String := if s = "" then "param" else s

theorem orParam_ne_empty (s : String) : orParam s ≠ "" := by
  unfold orParam
  split
  · decide
  · assumption

/-- `normalize` from the generator:
`re.sub(r"\W|^(?=\d)", "_", name).lower().strip("_")`, then suffix an
underscore on a reserved keyword, then fall back to `"param"` when empty.
The substitution replaces every non-word character with `_` and, when the
first character is a digit, additionally inserts a leading `_` (which the
subsequent `strip("_")` removes again). -/
def normalize (name : String) : String :=
  let replaced := String.mk (name.data.map fun c => if pyWordChar c then c else '_')
  let digitLed :=
    if (name.data.head?.map Char.isDigit).getD false then "_" ++ replaced else replaced
  let stripped := stripChar '_' (pyLower digitLed)
  orParam (if pyKeywords.contains stripped then stripped ++ "_" else stripped)

theorem normalize_ne_empty (s : String) : normalize s ≠ "" :=
  orParam_ne_empty _

/-- Python `str.title()` restricted to ASCII cased letters: uppercase a
letter that follows a non-letter, lowercase a letter that follows a letter. -/
def pyTitleGo : Bool → List Char → List Char
  | _, [] => []
  | prev, c :: cs =>
    if c.isAlpha then (if prev then c.toLower else c.toUpper) :: pyTitleGo true cs
    else c :: pyTitleGo false cs

def pyTitle (s : String) : String := String.mk (pyTitleGo false s.data)

/-- `camel` from the generator: title-case, drop non-alphanumerics, fall back
to `"PluginClass"` when empty. -/
def camel (title : String) : String :=
  let squeezed := String.mk ((pyTitle title).data.filter Char.isAlphanum)
  if squeezed = "" then "PluginClass" else squeezed

/-- One extracted documentation-table row, as produced by `extract_params`:
the dict `{"name": …, "type": …, "desc": …, "flags": …}` (`ptype` embeds the
`"type"` entry). -/
structure ParamRow where
  name : String
  ptype : String
  desc : String
  flags : String
deriving DecidableEq, Repr

/-- One extracted plugin section, as produced by `parse_category_page`:
the dict `{"title": …, "slug": …, "url": …, "params": …}`. -/
structure SectionSpec where
  title : String
  slug : String
  url : String
  params : List ParamRow
deriving DecidableEq, Repr

/-- The probe loop of `render_class`'s inner `unique` helper: try
`base_i`, `base_(i+1)`, … until a candidate outside `seen` is found. At most
`|seen| + 1` probes can collide, so the fuel bound is never exhausted on the
paths `render_class` takes; the fuel-out value keeps the function total. -/
def uniqueGo (seen : List String) (base : String) : Nat → Nat → String
  | 0, i => base ++ "_" ++ toString i
  | fuel + 1, i =>
    let cand := base ++ "_" ++ toString i
    if seen.contains cand then uniqueGo seen base fuel (i + 1) else cand

/-- `unique` from `render_class`: keep `name` when it is nonempty and not in
`seen`, otherwise probe `name_2`, `name_3`, …  (The caller records the
chosen name in `seen`, mirroring `seen.add`.) -/
def uniqueName (seen : List String) (name : String) : String :=
  if seen.contains name || name = "" then uniqueGo seen name (seen.length + 1) 2 else name

theorem uniqueName_fresh {seen : List String} {name : String}
    (h1 : seen.contains name = false) (h2 : name ≠ "") : uniqueName seen name = name := by
  have h1' : name ∉ seen := by simpa using h1
  simp [uniqueName, h1', h2]

/-- `_esc` from `render_class`: escape backslashes and triple quotes. -/
def esc (x : String) : String :=
  pyReplace (pyReplace x "\\" "\\\\") "\"\"\"" "\\\"\\\"\\\""

/-- The marker list of `render_class`'s doc line: substring tests on the
lowercased flags text for `"p"`, `"∂"` and `"d"`. -/
def markerList (flags : String) : List String :=
  (if hasSub flags "p" then ["P"] else []) ++
  (if hasSub flags "∂" then ["∂"] else []) ++
  (if hasSub flags "d" then ["D"] else [])

/-- `marker_str` after its reassignment in `render_class`: the joined marker
list, wrapped in brackets when nonempty. -/
def markerStr (flags : String) : String :=
  let j := String.intercalate " | " (markerList flags)
  if j.length ≠ 0 then "[" ++ j ++ "]" else ""

/-- The mutable local state of `render_class`'s parameter loop.  `lastP`,
`lastRaw` and `lastMarker` track the Python loop variables `p`, `raw_name`
and `marker_str`, which stay bound after the loop ends and are `none` when
the corresponding binding statement never executed (reading them then raises
`NameError`). -/
structure RState where
  reqF : List String
  optF : List String
  reqC : List String
  optC : List String
  assigns : List String
  docs : List String
  seen : List String
  lastP : Option ParamRow
  lastRaw : Option String
  lastMarker : Option String
deriving DecidableEq, Repr

/-- The body of `render_class`'s inner alias loop, for one `raw_name`. -/
def doAlias (p : ParamRow) (flags : String) (isReq : Bool) (st : RState) (raw : String) :
    RState :=
  let st := { st with lastRaw := some raw }
  let nm := normalize raw
  if st.seen.contains nm then st
  else
    let baseAnn := map_type p.ptype
    let ann := if isReq then baseAnn else "Optional[" ++ baseAnn ++ "]"
    let nm := uniqueName st.seen nm
    let ms := markerStr flags
    { st with
      seen := st.seen ++ [nm]
      reqF := if isReq then st.reqF ++ ["    " ++ nm ++ ": " ++ ann] else st.reqF
      optF := if isReq then st.optF else st.optF ++ ["    " ++ nm ++ ": " ++ ann ++ " = None"]
      reqC := if isReq then st.reqC ++ [nm ++ ": " ++ ann] else st.reqC
      optC := if isReq then st.optC else st.optC ++ [nm ++ ": " ++ ann ++ " = None"]
      assigns := st.assigns ++ ["        self." ++ nm ++ " = " ++ nm]
      docs := st.docs ++
        ["        - " ++ esc raw ++ " (" ++ esc p.ptype ++ "): " ++ ms ++ " " ++ esc p.desc]
      lastMarker := some ms }

/-- The body of `render_class`'s outer row loop, for one `ParamRow`:
bind `p`, lowercase the flags, drop state/derived/output rows, then run the
alias loop with the row's required bit. -/
def doRow (st : RState) (p : ParamRow) : RState :=
  let st := { st with lastP := some p }
  let flags := (pyLower p.flags)
  if hasSub flags "state" || hasSub flags "derived" || hasSub flags "output" then st
  else (split_names p.name).foldl (doAlias p flags (hasSub flags "required")) st

/-- The loop state at entry of `render_class`. -/
def initState : RState :=
  { reqF := [], optF := [], reqC := [], optC := [],
    assigns := ["        self.id = id"], docs := [],
    seen := [], lastP := none, lastRaw := none, lastMarker := none }

/-- The structured content of the class definition `render_class` renders
into `CLASS_TMPL`: class name, slug, doc lines, field lines, constructor
arguments and assignment lines. -/
structure RenderedClass where
  cls : String
  slug : String
  docs : List String
  fields : List String
  ctorArgs : List String
  assigns : List String
deriving DecidableEq, Repr

/-- The doc line appended by the first (live) `bsdf` injection block: it
interpolates the leftover loop variables `raw_name`, `p` and `marker_str`,
and wraps the already-bracketed `marker_str` in a second pair of brackets. -/
def bsdfDocLine (raw ptype ms desc : String) : String :=
  "        - " ++ esc raw ++ " (" ++ esc ptype ++ "): [" ++ ms ++ "] " ++ esc desc

/-- The state effect shared by both `bsdf` injection blocks: record `"bsdf"`
as seen, append the optional field / constructor argument / assignment, and
append the given doc line. -/
def injectBsdf (st : RState) (docLine : String) : RState :=
  { st with
    seen := st.seen ++ ["bsdf"]
    optF := st.optF ++ ["    bsdf: Optional[Plugin] = None"]
    optC := st.optC ++ ["bsdf: Optional[Plugin] = None"]
    assigns := st.assigns ++ ["        self.bsdf = bsdf"]
    docs := st.docs ++ [docLine] }

/-- The tail of `render_class`: the `pass` / `(no parameters documented)`
fallback for an empty field list, the constructor argument list with the
`id` argument between the required and optional groups, and the
`CLASS_TMPL` slots. -/
def finishState (st : RState) (spec : SectionSpec) : RenderedClass :=
  let fs := st.reqF ++ st.optF
  let fsDocs :=
    if fs.isEmpty then (["    pass"], ["        (no parameters documented)"])
    else (fs, st.docs)
  { cls := camel (if spec.title ≠ "" then spec.title else spec.slug),
    slug := spec.slug, docs := fsDocs.2, fields := fsDocs.1,
    ctorArgs := st.reqC ++ ["id: Optional[str] = None"] ++ st.optC,
    assigns := st.assigns }

/-- `render_class` from the generator.  The two `bsdf` injection blocks are
both embedded, in source order: the first references the loop variables
`raw_name` / `p` / `marker_str` and raises `NameError` when the referenced
variable was never bound (embedded as `Except.error`, naming the variable in
Python's f-string evaluation order); the second block runs only when the
first did not already add `"bsdf"` to `seen`. -/
def render_class (spec : SectionSpec) (categoryName : String) :
    Except String RenderedClass := do
  let addShapeBsdf := hasStart (pyLower categoryName) "shape"
  let st := spec.params.foldl doRow initState
  let st ←
    if addShapeBsdf && !st.seen.contains "bsdf" then
      match st.lastRaw, st.lastP, st.lastMarker with
      | none, _, _ => Except.error "NameError: name raw_name is not defined"
      | some _, none, _ => Except.error "NameError: name p is not defined"
      | some _, some _, none => Except.error "NameError: name marker_str is not defined"
      | some raw, some p, some ms =>
        pure (injectBsdf st (bsdfDocLine raw p.ptype ms p.desc))
    else pure st
  let st ←
    if addShapeBsdf && !st.seen.contains "bsdf" then
      pure (injectBsdf st "        - bsdf (bsdf): [P] Surface scattering model")
    else pure st
  pure (finishState st spec)

/-! ### Encounter-order view of the parameter loop

`render_class`'s loop appends each accepted parameter to one of four lists.
The definitions below give the same traversal's single emitted sequence of
accepted parameters, in encounter order, so that the accumulated lists can
be characterised as its projections. -/

/-- One accepted parameter of the synthesis loop: final identifier, base
annotation from `map_type`, and the row's required bit. -/
structure PEntry where
  nm : String
  baseAnn : String
  required : Bool
deriving DecidableEq, Repr

/-- The alias-loop step, emitting accepted entries in encounter order while
threading the `seen` set (same accept/skip logic as `doAlias`). -/
def entriesAlias (p : ParamRow) (isReq : Bool) (acc : List PEntry × List String)
    (raw : String) : List PEntry × List String :=
  let nm := normalize raw
  if acc.2.contains nm then acc
  else
    let nm := uniqueName acc.2 nm
    (acc.1 ++ [⟨nm, map_type p.ptype, isReq⟩], acc.2 ++ [nm])

/-- The row-loop step of the encounter-order view (same flag logic as
`doRow`). -/
def entriesRow (acc : List PEntry × List String) (p : ParamRow) :
    List PEntry × List String :=
  let flags := (pyLower p.flags)
  if hasSub flags "state" || hasSub flags "derived" || hasSub flags "output" then acc
  else (split_names p.name).foldl (entriesAlias p (hasSub flags "required")) acc

/-- Accepted parameters of the synthesis loop in encounter order, starting
from a given `seen` set, together with the final `seen` set. -/
def entriesOf (params : List ParamRow) (seen : List String) :
    List PEntry × List String :=
  params.foldl entriesRow ([], seen)

/-- Accepted parameters of the synthesis loop in encounter order. -/
def encounterEntries (params : List ParamRow) : List PEntry :=
  (entriesOf params []).1

/-- The field-declaration line `render_class` emits for an accepted entry. -/
def fieldDeclOf (e : PEntry) : String :=
  if e.required then "    " ++ e.nm ++ ": " ++ e.baseAnn
  else "    " ++ e.nm ++ ": Optional[" ++ e.baseAnn ++ "] = None"

/-- The constructor-argument text `render_class` emits for an accepted
entry. -/
def ctorDeclOf (e : PEntry) : String :=
  if e.required then e.nm ++ ": " ++ e.baseAnn
  else e.nm ++ ": Optional[" ++ e.baseAnn ++ "] = None"

/-- All candidate parameters of a row after flag filtering and alias
splitting, with their normalized identifiers, before any deduplication. -/
def rawRow (p : ParamRow) : List PEntry :=
  let flags := (pyLower p.flags)
  if hasSub flags "state" || hasSub flags "derived" || hasSub flags "output" then []
  else (split_names p.name).map
    (fun raw => ⟨normalize raw, map_type p.ptype, hasSub flags "required"⟩)

/-- All candidate parameters of a section in encounter order, before
deduplication. -/
def rawEntries (params : List ParamRow) : List PEntry :=
  params.flatMap rawRow

/-- First-occurrence-wins deduplication by identifier: keep an entry exactly
when its identifier was not seen before, never renaming it; returns the kept
entries and the final seen set. -/
def dedupGo : List PEntry → List String → List PEntry × List String
  | [], seen => ([], seen)
  | e :: es, seen =>
    if seen.contains e.nm then dedupGo es seen
    else
      let r := dedupGo es (seen ++ [e.nm])
      (e :: r.1, r.2)

/-! ### Transform builder and its native composition

`Transform` (from the emitted `utils` module) records deferred ops; `to_mi`
starts from the identity native transform and left-composes each op's own
single-op native transform (`cur = piece @ cur`).  The native
`mi.ScalarTransform4f` library is external to this repository, so `to_mi`
is embedded relative to an arbitrary interpretation `piece` of a single op
as a map on points; Python float triples are embedded as `ℚ` triples. -/

/-- One recorded op of `Transform._ops` (the five dict shapes the builder
methods append). -/
inductive MiOp where
  | translate (x y z : ℚ)
  | scale (x y z : ℚ)
  | rotate (ax ay az angle : ℚ)
  | lookAt (ox oy oz tx ty tz ux uy uz : ℚ)
  | matrixOp (m : List (List ℚ))
deriving DecidableEq, Repr

/-- A 3D point, as acted on by the native transform chain. -/
abbrev Point := ℚ × ℚ × ℚ

/-- The `Transform` builder: an ordered list of recorded ops. -/
structure Transform where
  ops : List MiOp
deriving DecidableEq, Repr

/-- `Transform()`. -/
def Transform.new : Transform := ⟨[]⟩

/-- `Transform.translate`: append a translate op. -/
def Transform.translate (t : Transform) (x y z : ℚ) : Transform :=
  ⟨t.ops ++ [.translate x y z]⟩

/-- `Transform.scale` with all three components given. -/
def Transform.scale3 (t : Transform) (x y z : ℚ) : Transform :=
  ⟨t.ops ++ [.scale x y z]⟩

/-- `Transform.scale` with only `x` given (`y is None and z is None`):
records a uniform scale `[x, x, x]`. -/
def Transform.scale1 (t : Transform) (x : ℚ) : Transform :=
  ⟨t.ops ++ [.scale x x x]⟩

/-- `Transform.rotate`: append a rotate op. -/
def Transform.rotate (t : Transform) (ax ay az angle : ℚ) : Transform :=
  ⟨t.ops ++ [.rotate ax ay az angle]⟩

/-- `Transform.look_at`: append a look-at op. -/
def Transform.look_at (t : Transform) (ox oy oz tx ty tz ux uy uz : ℚ) : Transform :=
  ⟨t.ops ++ [.lookAt ox oy oz tx ty tz ux uy uz]⟩

/-- `Transform.matrix`: append a raw-matrix op. -/
def Transform.matrixM (t : Transform) (m : List (List ℚ)) : Transform :=
  ⟨t.ops ++ [.matrixOp m]⟩

/-- `Transform.to_mi`, relative to an interpretation `piece` of one op as the
native library's single-op transform (a map on points): start from the
identity (`T()`), and for each recorded op in append order left-compose
(`cur = piece @ cur`, i.e. the new running transform sends `q` to
`piece op (cur q)`). -/
def Transform.to_mi (piece : MiOp → Point → Point) (t : Transform) : Point → Point :=
  t.ops.foldl (fun cur op => fun q => piece op (cur q)) (fun q => q)

/-- Modelled from the spec: the single-op native transforms are built by the
external `mitsuba` library, which is not part of this repository.  The spec
fixes their action for the ops the transform claims use — a translate op
adds its offset to the point and a scale op multiplies componentwise.  The
`rotate`, `lookAt` and `matrixOp` interpretations are not constrained by the
spec's composition sentences and are not used by any claim's concrete
transform, so they are modelled as the identity map; the composition-order
theorem is proved for an arbitrary interpretation. -/
def ratPiece : MiOp → Point → Point
  | .translate x y z, (a, b, c) => (a + x, b + y, c + z)
  | .scale x y z, (a, b, c) => (a * x, b * y, c * z)
  | _, q => q

/-! ### Runtime Scene model (`src/mitsuba_scene_description/scene.py`)

Plugins authored into a scene are an arbitrary type `P` wherever only their
serialized form matters; `RPlugin` is the concrete type/id record used where
the code reads or writes `plugin.id`.  Python dicts are association lists
with Python's assignment semantics (`dput`). -/

/-- The concrete plugin record for the asset operations: the Python
`Plugin` base data, a `type` tag (`ptype`) and an optional `id`. -/
structure RPlugin where
  ptype : String
  id : Option String
deriving DecidableEq, Repr

/-- `Ref(id)`: a by-name pointer to an asset (its `type` tag is always
`"ref"`). -/
structure Ref where
  id : String
deriving DecidableEq, Repr

/-- A serialized value in a scene dictionary: either a plain string (the
`"type"` and `"id"` entries) or the opaque serialized form `serialize(p)` of
an authored plugin. -/
inductive Value (P : Type) where
  | str (s : String)
  | ser (p : P)
deriving DecidableEq, Repr

/-- Python dict assignment `d[k] = v` on an insertion-ordered association
list: update in place when the key exists, append otherwise. -/
def dput {α : Type} (d : List (String × α)) (k : String) (v : α) :
    List (String × α) :=
  if d.any (fun kv => kv.1 = k) then
    d.map (fun kv => if kv.1 = k then (k, v) else kv)
  else d ++ [(k, v)]

/-- Python dict lookup `d[k]` (as an option). -/
def dget {α : Type} (d : List (String × α)) (k : String) : Option α :=
  (d.find? (fun kv => kv.1 = k)).map (fun kv => kv.2)

/-- The `Scene` dataclass: optional integrator, sensor list, and the four
name-keyed maps, plus the scene's own optional id. -/
structure Scene (P : Type) where
  integrator : Option P
  sensors : List P
  shapes : List (String × P)
  emitters : List (String × P)
  media : List (String × P)
  assets : List (String × P)
  id : Option String
deriving DecidableEq, Repr

/-- `Scene()` with all defaults. -/
def sceneNew {P : Type} : Scene P := ⟨none, [], [], [], [], [], none⟩

/-- `Scene.add_asset`: when the plugin has no id, assign it
`"asset_" + (len(assets) + 1)`; store the plugin under its id (Python dict
assignment) and return a `Ref` to that id.  (`assets.length` is the dict
size: authored asset maps have unique keys.) -/
def Scene.add_asset (s : Scene RPlugin) (p : RPlugin) : Scene RPlugin × Ref :=
  let k := match p.id with
    | none => "asset_" ++ toString (s.assets.length + 1)
    | some i => i
  let p := { p with id := some k }
  ({ s with assets := dput s.assets k p }, ⟨k⟩)

/-- `Scene.to_dict`: `type: "scene"`, then integrator, then either a single
`sensor` entry (exactly one sensor) or `sensor_i` entries in list order,
then one entry per shape/emitter/medium/asset under its map key, then `id`
if set.  Serialization of an authored plugin is the opaque `Value.ser`. -/
def Scene.to_dict {P : Type} (s : Scene P) : List (String × Value P) :=
  let d : List (String × Value P) := [("type", .str "scene")]
  let d := match s.integrator with
    | some integ => dput d "integrator" (.ser integ)
    | none => d
  let d := match s.sensors with
    | [x] => dput d "sensor" (.ser x)
    | xs => xs.enum.foldl
        (fun acc ix => dput acc ("sensor_" ++ toString ix.1) (.ser ix.2)) d
  let d := s.shapes.foldl (fun acc kv => dput acc kv.1 (.ser kv.2)) d
  let d := s.emitters.foldl (fun acc kv => dput acc kv.1 (.ser kv.2)) d
  let d := s.media.foldl (fun acc kv => dput acc kv.1 (.ser kv.2)) d
  let d := s.assets.foldl (fun acc kv => dput acc kv.1 (.ser kv.2)) d
  match s.id with
  | some i => dput d "id" (.str i)
  | none => d

/-- The `SceneBuilder` accumulator (`_integrator`, `_sensors`, …, `_id`). -/
structure SceneBuilder where
  integrator : Option RPlugin
  sensors : List RPlugin
  shapes : List (String × RPlugin)
  emitters : List (String × RPlugin)
  media : List (String × RPlugin)
  assets : List (String × RPlugin)
  bid : Option String
deriving DecidableEq, Repr

/-- `SceneBuilder()`. -/
def SceneBuilder.new : SceneBuilder := ⟨none, [], [], [], [], [], none⟩

/-- `SceneBuilder.sensor`: append a sensor. -/
def SceneBuilder.sensor (b : SceneBuilder) (p : RPlugin) : SceneBuilder :=
  { b with sensors := b.sensors ++ [p] }

/-- `SceneBuilder.asset`: same auto-naming and storage as
`Scene.add_asset`, returning the updated builder (`return self`). -/
def SceneBuilder.asset (b : SceneBuilder) (p : RPlugin) : SceneBuilder :=
  let k := match p.id with
    | none => "asset_" ++ toString (b.assets.length + 1)
    | some i => i
  let p := { p with id := some k }
  { b with assets := dput b.assets k p }

/-- `SceneBuilder.build`. -/
def SceneBuilder.build (b : SceneBuilder) : Scene RPlugin :=
  ⟨b.integrator, b.sensors, b.shapes, b.emitters, b.media, b.assets, b.bid⟩

/-! ### Dictionary lemmas -/

theorem find?_mapReplace_self {α : Type} (k : String) (v : α) :
    ∀ (tl : List (String × α)), tl.any (fun kv => kv.1 = k) = true →
      (tl.map (fun kv => if kv.1 = k then (k, v) else kv)).find?
        (fun kv => kv.1 = k) = some (k, v) := by
  intro tl
  induction tl with
  | nil => intro h; simp at h
  | cons kv tl ih =>
    intro h
    by_cases hk : kv.1 = k
    · simp only [List.map_cons, if_pos hk]
      exact List.find?_cons_of_pos _ (by simp)
    · simp only [List.any_cons, Bool.or_eq_true] at h
      have htl : tl.any (fun kv => kv.1 = k) = true := by
        rcases h with h | h
        · exact absurd (by simpa using h) hk
        · exact h
      simp only [List.map_cons, if_neg hk]
      rw [List.find?_cons_of_neg _ (by simp [hk])]
      exact ih htl

theorem find?_mapReplace_ne {α : Type} {k' k : String} (v : α) (hne : k' ≠ k) :
    ∀ (tl : List (String × α)),
      (tl.map (fun kv => if kv.1 = k' then (k', v) else kv)).find?
        (fun kv => kv.1 = k) = tl.find? (fun kv => kv.1 = k) := by
  intro tl
  induction tl with
  | nil => rfl
  | cons kv tl ih =>
    by_cases hk : kv.1 = k'
    · simp only [List.map_cons, if_pos hk]
      rw [List.find?_cons_of_neg _ (by simp [hne]),
          List.find?_cons_of_neg _ (by simp [hk, hne]), ih]
    · simp only [List.map_cons, if_neg hk]
      by_cases hkk : kv.1 = k
      · rw [List.find?_cons_of_pos _ (by simp [hkk]),
            List.find?_cons_of_pos _ (by simp [hkk])]
      · rw [List.find?_cons_of_neg _ (by simp [hkk]),
            List.find?_cons_of_neg _ (by simp [hkk]), ih]

theorem dget_dput_self {α : Type} (d : List (String × α)) (k : String) (v : α) :
    dget (dput d k v) k = some v := by
  unfold dput dget
  by_cases h : d.any (fun kv => kv.1 = k)
  · rw [if_pos h, find?_mapReplace_self k v d h]
    rfl
  · rw [if_neg h, List.find?_append]
    have hnone : d.find? (fun kv => kv.1 = k) = none := by
      rw [List.find?_eq_none]
      intro x hx
      simp only [List.any_eq_true] at h
      push_neg at h
      simpa using h x hx
    rw [hnone]
    simp [List.find?_cons_of_pos _ (by simp : (decide ((k, v).1 = k)) = true)]

theorem dget_dput_ne {α : Type} (d : List (String × α)) {k' k : String} (v : α)
    (hne : k' ≠ k) : dget (dput d k' v) k = dget d k := by
  unfold dput dget
  by_cases h : d.any (fun kv => kv.1 = k')
  · rw [if_pos h, find?_mapReplace_ne v hne d]
  · rw [if_neg h, List.find?_append]
    have : ([(k', v)].find? (fun kv => kv.1 = k)) = none := by
      rw [List.find?_eq_none]
      intro x hx
      simp only [List.mem_singleton] at hx
      simp [hx, hne]
    rw [this]
    cases d.find? (fun kv => kv.1 = k) <;> simp

/-- Folding `dput` over entries whose keys all differ from `k` does not
change the value found at `k`. -/
theorem dget_fold_dput_ne {α P : Type} (f : P → α) (k : String) :
    ∀ (m : List (String × P)) (d : List (String × α)),
      (∀ kv ∈ m, kv.1 ≠ k) →
      dget (m.foldl (fun acc kv => dput acc kv.1 (f kv.2)) d) k = dget d k := by
  intro m
  induction m with
  | nil => intro d _; rfl
  | cons kv tl ih =>
    intro d hm
    simp only [List.foldl_cons]
    rw [ih _ (fun x hx => hm x (List.mem_cons_of_mem _ hx)),
        dget_dput_ne _ _ (hm kv (List.mem_cons_self _ _))]

/-- Specialisation of `dget_fold_dput_ne` to the serialising folds of
`Scene.to_dict`. -/
theorem dget_fold_serdput_ne {P : Type} (k : String) :
    ∀ (m : List (String × P)) (d : List (String × Value P)),
      (∀ kv ∈ m, kv.1 ≠ k) →
      dget (m.foldl (fun acc kv => dput acc kv.1 (Value.ser kv.2)) d) k = dget d k := by
  intro m
  induction m with
  | nil => intro d _; rfl
  | cons kv tl ih =>
    intro d hm
    simp only [List.foldl_cons]
    rw [ih _ (fun x hx => hm x (List.mem_cons_of_mem _ hx)),
        dget_dput_ne _ _ (hm kv (List.mem_cons_self _ _))]

/-! ### Composition order of `to_mi` -/

theorem foldl_comp_apply (piece : MiOp → Point → Point) (ops : List MiOp) :
    ∀ (f : Point → Point) (q : Point),
      (ops.foldl (fun cur op => fun r => piece op (cur r)) f) q =
        ops.foldl (fun r op => piece op r) (f q) := by
  induction ops with
  | nil => intro f q; rfl
  | cons o os ih => intro f q; simpa using ih (fun r => piece o (f r)) q

/-! ### Projection machinery for the synthesis loop -/

/-- `projOK st st' es seen'` : starting from loop state `st`, the loop
reached `st'` by accepting exactly the entries `es` (in encounter order),
and `seen'` is the resulting seen set. -/
def projOK (st st' : RState) (es : List PEntry) (seen' : List String) : Prop :=
  st'.reqF = st.reqF ++ (es.filter (fun e => e.required)).map fieldDeclOf ∧
  st'.optF = st.optF ++ (es.filter (fun e => !e.required)).map fieldDeclOf ∧
  st'.reqC = st.reqC ++ (es.filter (fun e => e.required)).map ctorDeclOf ∧
  st'.optC = st.optC ++ (es.filter (fun e => !e.required)).map ctorDeclOf ∧
  st'.seen = seen'

theorem projOK_refl (st : RState) : projOK st st [] st.seen := by
  simp [projOK]

theorem projOK_trans {st st1 st2 : RState} {es1 es2 : List PEntry}
    {seen1 seen2 : List String} (h1 : projOK st st1 es1 seen1)
    (h2 : projOK st1 st2 es2 seen2) : projOK st st2 (es1 ++ es2) seen2 := by
  obtain ⟨a1, b1, c1, d1, e1⟩ := h1
  obtain ⟨a2, b2, c2, d2, e2⟩ := h2
  refine ⟨?_, ?_, ?_, ?_, e2⟩ <;>
    simp [a1, b1, c1, d1, a2, b2, c2, d2, List.filter_append, List.append_assoc]

/-- The encounter-order alias fold accumulates by appending: folding from
`(es, seen)` prepends `es` to the result of folding from `([], seen)`. -/
theorem entriesAliasFold_split (p : ParamRow) (isReq : Bool) (raws : List String) :
    ∀ (es : List PEntry) (seen : List String),
      raws.foldl (entriesAlias p isReq) (es, seen) =
        (es ++ (raws.foldl (entriesAlias p isReq) ([], seen)).1,
         (raws.foldl (entriesAlias p isReq) ([], seen)).2) := by
  induction raws with
  | nil => intro es seen; simp
  | cons raw rest ih =>
    intro es seen
    simp only [List.foldl_cons]
    by_cases h : normalize raw ∈ seen
    · have h1 : entriesAlias p isReq (es, seen) raw = (es, seen) := by
        simp [entriesAlias, h]
      have h2 : entriesAlias p isReq ([], seen) raw = ([], seen) := by
        simp [entriesAlias, h]
      rw [h1, h2, ih es seen]
    · have h1 : entriesAlias p isReq (es, seen) raw =
          (es ++ [⟨uniqueName seen (normalize raw), map_type p.ptype, isReq⟩],
           seen ++ [uniqueName seen (normalize raw)]) := by
        simp [entriesAlias, h]
      have h2 : entriesAlias p isReq ([], seen) raw =
          ([⟨uniqueName seen (normalize raw), map_type p.ptype, isReq⟩],
           seen ++ [uniqueName seen (normalize raw)]) := by
        simp [entriesAlias, h]
      rw [h1, h2, ih (es ++ [_]) _,
          ih [⟨uniqueName seen (normalize raw), map_type p.ptype, isReq⟩] _]
      simp

/-- The encounter-order row fold accumulates by appending. -/
theorem entriesRowFold_split (params : List ParamRow) :
    ∀ (es : List PEntry) (seen : List String),
      params.foldl entriesRow (es, seen) =
        (es ++ (params.foldl entriesRow ([], seen)).1,
         (params.foldl entriesRow ([], seen)).2) := by
  induction params with
  | nil => intro es seen; simp
  | cons p rest ih =>
    intro es seen
    simp only [List.foldl_cons]
    by_cases h : hasSub (pyLower p.flags) "state" || hasSub (pyLower p.flags) "derived" ||
        hasSub (pyLower p.flags) "output"
    · have h1 : entriesRow (es, seen) p = (es, seen) := by
        simp only [entriesRow]
        rw [if_pos h]
      have h2 : entriesRow ([], seen) p = ([], seen) := by
        simp only [entriesRow]
        rw [if_pos h]
      rw [h1, h2, ih es seen]
    · have h1 : entriesRow (es, seen) p =
          (split_names p.name).foldl
            (entriesAlias p (hasSub (pyLower p.flags) "required")) (es, seen) := by
        simp only [entriesRow]
        rw [if_neg h]
      have h2 : entriesRow ([], seen) p =
          (split_names p.name).foldl
            (entriesAlias p (hasSub (pyLower p.flags) "required")) ([], seen) := by
        simp only [entriesRow]
        rw [if_neg h]
      rw [h1, h2, entriesAliasFold_split _ _ _ es seen]
      set A := ((split_names p.name).foldl
        (entriesAlias p (hasSub (pyLower p.flags) "required")) ([], seen))
      rw [ih (es ++ A.1) A.2, ih A.1 A.2]
      simp

theorem strFoldOptional (x : String) :
    ": " ++ ("Optional[" ++ x) = ": Optional[" ++ x := by
  rw [← String.append_assoc]
  rfl

/-- One alias-loop step of `render_class` accepts exactly the entries the
encounter-order view emits, with matching list appends. -/
theorem projOK_doAlias (p : ParamRow) (flags : String) (isReq : Bool)
    (st : RState) (raw : String) :
    projOK st (doAlias p flags isReq st raw)
      ((entriesAlias p isReq ([], st.seen) raw).1)
      ((entriesAlias p isReq ([], st.seen) raw).2) := by
  by_cases h : normalize raw ∈ st.seen
  · simp [doAlias, entriesAlias, projOK, h]
  · rcases Bool.eq_false_or_eq_true isReq with hr | hr <;> subst hr <;>
      simp [doAlias, entriesAlias, projOK, h, fieldDeclOf, ctorDeclOf,
        String.append_assoc, strFoldOptional]

/-- The whole alias loop of one row relates to its encounter-order view. -/
theorem projOK_aliasFold (p : ParamRow) (flags : String) (isReq : Bool)
    (raws : List String) :
    ∀ (st : RState),
      projOK st (raws.foldl (doAlias p flags isReq) st)
        ((raws.foldl (entriesAlias p isReq) ([], st.seen)).1)
        ((raws.foldl (entriesAlias p isReq) ([], st.seen)).2) := by
  induction raws with
  | nil => intro st; simpa using projOK_refl st
  | cons raw rest ih =>
    intro st
    simp only [List.foldl_cons]
    have hstep := projOK_doAlias p flags isReq st raw
    set st1 := doAlias p flags isReq st raw with hst1
    have hseen1 : st1.seen = (entriesAlias p isReq ([], st.seen) raw).2 :=
      hstep.2.2.2.2
    have hrest := ih st1
    have hcomb := projOK_trans hstep (hseen1 ▸ hrest)
    rw [entriesAliasFold_split p isReq rest
      (entriesAlias p isReq ([], st.seen) raw).1
      (entriesAlias p isReq ([], st.seen) raw).2]
    simpa using hcomb

/-- One row-loop step of `render_class` relates to its encounter-order
view. -/
theorem projOK_doRow (st : RState) (p : ParamRow) :
    projOK st (doRow st p) ((entriesRow ([], st.seen) p).1)
      ((entriesRow ([], st.seen) p).2) := by
  by_cases h : hasSub (pyLower p.flags) "state" || hasSub (pyLower p.flags) "derived" ||
      hasSub (pyLower p.flags) "output"
  · have h1 : doRow st p = { st with lastP := some p } := by
      simp only [doRow]
      rw [if_pos h]
    have h2 : entriesRow ([], st.seen) p = ([], st.seen) := by
      simp only [entriesRow]
      rw [if_pos h]
    rw [h1, h2]
    simp [projOK]
  · have h1 : doRow st p = (split_names p.name).foldl
        (doAlias p (pyLower p.flags) (hasSub (pyLower p.flags) "required"))
        { st with lastP := some p } := by
      simp only [doRow]
      rw [if_neg h]
    have h2 : entriesRow ([], st.seen) p = (split_names p.name).foldl
        (entriesAlias p (hasSub (pyLower p.flags) "required")) ([], st.seen) := by
      simp only [entriesRow]
      rw [if_neg h]
    rw [h1, h2]
    have := projOK_aliasFold p (pyLower p.flags) (hasSub (pyLower p.flags) "required")
      (split_names p.name) { st with lastP := some p }
    simpa [projOK] using this

/-- The whole parameter loop of `render_class` relates to its
encounter-order view. -/
theorem projOK_rowFold (params : List ParamRow) :
    ∀ (st : RState),
      projOK st (params.foldl doRow st) ((entriesOf params st.seen).1)
        ((entriesOf params st.seen).2) := by
  induction params with
  | nil => intro st; simpa [entriesOf] using projOK_refl st
  | cons p rest ih =>
    intro st
    simp only [List.foldl_cons, entriesOf]
    have hstep := projOK_doRow st p
    set st1 := doRow st p with hst1
    have hseen1 : st1.seen = (entriesRow ([], st.seen) p).2 := hstep.2.2.2.2
    have hrest := ih st1
    simp only [entriesOf] at hrest
    have hcomb := projOK_trans hstep (hseen1 ▸ hrest)
    rw [show rest.foldl entriesRow (entriesRow ([], st.seen) p) =
        rest.foldl entriesRow ((entriesRow ([], st.seen) p).1,
          (entriesRow ([], st.seen) p).2) from rfl,
      entriesRowFold_split rest (entriesRow ([], st.seen) p).1
        (entriesRow ([], st.seen) p).2]
    simpa using hcomb

/-- Whether the shape-category `bsdf` injection fires for a given parameter
list and owning category name. -/
def bsdfInjected (params : List ParamRow) (cat : String) : Bool :=
  hasStart (pyLower cat) "shape" && !(entriesOf params []).2.contains "bsdf"

/-- Branch-level characterisation of `render_class`: the second injection
block is unreachable (the first block, when it runs, already records
`"bsdf"` as seen), so the result is the finished loop state, with the first
block's (possibly failing) injection applied for shape categories. -/
theorem render_class_eq (spec : SectionSpec) (cat : String) :
    render_class spec cat =
      (let st := spec.params.foldl doRow initState
       if hasStart (pyLower cat) "shape" && !st.seen.contains "bsdf" then
         match st.lastRaw, st.lastP, st.lastMarker with
         | none, _, _ => .error "NameError: name raw_name is not defined"
         | some _, none, _ => .error "NameError: name p is not defined"
         | some _, some _, none => .error "NameError: name marker_str is not defined"
         | some raw, some p, some ms =>
           .ok (finishState (injectBsdf st (bsdfDocLine raw p.ptype ms p.desc)) spec)
       else .ok (finishState st spec)) := by
  unfold render_class
  dsimp only
  set st := spec.params.foldl doRow initState with hst
  by_cases hc : (hasStart (pyLower cat) "shape" && !st.seen.contains "bsdf") = true
  · rw [if_pos hc, if_pos hc]
    cases hraw : st.lastRaw with
    | none => rfl
    | some raw =>
      cases hp : st.lastP with
      | none => rfl
      | some p =>
        cases hms : st.lastMarker with
        | none => rfl
        | some ms =>
          have hb : ((injectBsdf st (bsdfDocLine raw p.ptype ms p.desc)).seen.contains
              "bsdf") = true := by simp [injectBsdf]
          have hcond : ¬((hasStart (pyLower cat) "shape" &&
              !(injectBsdf st (bsdfDocLine raw p.ptype ms p.desc)).seen.contains "bsdf")
                = true) := by
            intro hand
            rw [Bool.and_eq_true] at hand
            rw [hb] at hand
            simp at hand
          simp only [bind, Except.bind, pure, Except.pure]
          rw [if_neg hcond]
  · rw [if_neg hc, if_neg hc]
    simp only [bind, Except.bind, pure, Except.pure]
    rw [if_neg (by simpa using hc)]

/-! ### First-occurrence-wins deduplication lemmas -/

theorem dedupGo_append (ys : List PEntry) :
    ∀ (xs : List PEntry) (seen : List String),
      dedupGo (xs ++ ys) seen =
        ((dedupGo xs seen).1 ++ (dedupGo ys (dedupGo xs seen).2).1,
         (dedupGo ys (dedupGo xs seen).2).2) := by
  intro xs
  induction xs with
  | nil => intro seen; simp [dedupGo]
  | cons e es ih =>
    intro seen
    by_cases h : e.nm ∈ seen
    · simp only [List.cons_append, dedupGo, List.append_eq]
      rw [if_pos (by simpa using h), if_pos (by simpa using h), ih]
    · simp only [List.cons_append, dedupGo, List.append_eq]
      rw [if_neg (by simpa using h), if_neg (by simpa using h), ih]
      simp

/-- The alias loop's accept/skip behaviour is first-occurrence-wins
deduplication of the normalized alias names, with no renaming: on a fresh
name `unique` returns the name unchanged (it is nonempty by
`normalize_ne_empty`). -/
theorem entriesAliasFold_eq_dedup (p : ParamRow) (isReq : Bool)
    (raws : List String) :
    ∀ (seen : List String),
      raws.foldl (entriesAlias p isReq) ([], seen) =
        dedupGo (raws.map fun raw => ⟨normalize raw, map_type p.ptype, isReq⟩) seen := by
  induction raws with
  | nil => intro seen; simp [dedupGo]
  | cons raw rest ih =>
    intro seen
    simp only [List.foldl_cons, List.map_cons, dedupGo]
    by_cases h : normalize raw ∈ seen
    · have h1 : entriesAlias p isReq ([], seen) raw = ([], seen) := by
        simp [entriesAlias, h]
      rw [h1, if_pos (by simpa using h)]
      exact ih seen
    · have hu : uniqueName seen (normalize raw) = normalize raw :=
        uniqueName_fresh (by simpa using h) (normalize_ne_empty raw)
      have h1 : entriesAlias p isReq ([], seen) raw =
          ([⟨normalize raw, map_type p.ptype, isReq⟩],
           seen ++ [normalize raw]) := by
        simp [entriesAlias, h, hu]
      rw [h1, if_neg (by simpa using h)]
      rw [entriesAliasFold_split p isReq rest [⟨normalize raw, map_type p.ptype, isReq⟩]
        (seen ++ [normalize raw])]
      rw [ih (seen ++ [normalize raw])]
      simp

/-- The synthesis loop's accepted entries are exactly the
first-occurrence-wins deduplication of the raw (flag-filtered, alias-split,
normalized) candidate list. -/
theorem entriesOf_eq_dedup (params : List ParamRow) :
    ∀ (seen : List String),
      entriesOf params seen = dedupGo (rawEntries params) seen := by
  induction params with
  | nil => intro seen; simp [entriesOf, rawEntries, dedupGo]
  | cons p rest ih =>
    intro seen
    simp only [entriesOf, List.foldl_cons, rawEntries, List.flatMap_cons]
    rw [dedupGo_append]
    by_cases h : hasSub (pyLower p.flags) "state" || hasSub (pyLower p.flags) "derived" ||
        hasSub (pyLower p.flags) "output"
    · have h1 : entriesRow ([], seen) p = ([], seen) := by
        simp only [entriesRow]
        rw [if_pos h]
      have h2 : rawRow p = [] := by
        simp only [rawRow]
        rw [if_pos h]
      rw [h1, h2]
      have := ih seen
      simp only [entriesOf, rawEntries] at this
      simpa [dedupGo] using this
    · have h1 : entriesRow ([], seen) p = (split_names p.name).foldl
          (entriesAlias p (hasSub (pyLower p.flags) "required")) ([], seen) := by
        simp only [entriesRow]
        rw [if_neg h]
      have h2 : rawRow p = (split_names p.name).map
          (fun raw => ⟨normalize raw, map_type p.ptype,
            hasSub (pyLower p.flags) "required"⟩) := by
        simp only [rawRow]
        rw [if_neg h]
      rw [h1, h2, entriesAliasFold_eq_dedup p _ _ seen]
      set D := dedupGo ((split_names p.name).map
        (fun raw => ⟨normalize raw, map_type p.ptype,
          hasSub (pyLower p.flags) "required"⟩)) seen
      rw [entriesRowFold_split rest D.1 D.2]
      have := ih D.2
      simp only [entriesOf, rawEntries] at this
      rw [this]

/-- The kept entries of `dedupGo` have pairwise-distinct identifiers, none
of which was in the incoming seen set. -/
theorem dedupGo_nodup (es : List PEntry) :
    ∀ (seen : List String),
      ((dedupGo es seen).1.map (fun e => e.nm)).Nodup ∧
        ∀ e ∈ (dedupGo es seen).1, e.nm ∉ seen := by
  induction es with
  | nil => intro seen; simp [dedupGo]
  | cons e es ih =>
    intro seen
    by_cases h : e.nm ∈ seen
    · simp only [dedupGo]
      rw [if_pos (by simpa using h)]
      exact ih seen
    · simp only [dedupGo]
      rw [if_neg (by simpa using h)]
      obtain ⟨hnd, hout⟩ := ih (seen ++ [e.nm])
      refine ⟨?_, ?_⟩
      · simp only [List.map_cons, List.nodup_cons]
        refine ⟨?_, hnd⟩
        intro hmem
        simp only [List.mem_map] at hmem
        obtain ⟨x, hx, hxnm⟩ := hmem
        have := hout x hx
        simp [hxnm] at this
      · intro x hx
        simp only [List.mem_cons] at hx
        rcases hx with rfl | hx
        · exact h
        · have := hout x hx
          simp only [List.mem_append, List.mem_singleton] at this
          exact fun hc => this (Or.inl hc)

/-! ### Claim theorems -/

/-- The transform of claim C1: ops recorded, in append order, as
`translate(1,0,0)` then `scale(2,2,2)`. -/
def transTS : Transform := (Transform.new.translate 1 0 0).scale3 2 2 2

/-- C1, counterexample: a `Transform` whose recorded ops are, in append
order, `translate(1,0,0)` then `scale(2,2,2)` does NOT map the local point
`(0,0,0)` to `(1,0,0)` under `to_mi` — the claimed world point is wrong. -/
theorem c1_counterexample :
    transTS.to_mi ratPiece (0, 0, 0) ≠ ((1 : ℚ), (0 : ℚ), (0 : ℚ)) := by
  norm_num [transTS, Transform.new, Transform.translate, Transform.scale3,
    Transform.to_mi, ratPiece]

/-- C1, amended: a `Transform` whose recorded ops are, in append order,
`translate(1,0,0)` then `scale(2,2,2)` maps the local point `(0,0,0)` to the
world point `(2,0,0)` under `to_mi` — the translate, being appended first,
is applied to the point before the scale. -/
theorem c1_amended :
    transTS.to_mi ratPiece (0, 0, 0) = ((2 : ℚ), (0 : ℚ), (0 : ℚ)) := by
  norm_num [transTS, Transform.new, Transform.translate, Transform.scale3,
    Transform.to_mi, ratPiece]

/-- C2: evaluating `render_class` on a plugin section with zero parameter
rows for a category whose name starts with "shape" raises `NameError` (the
live `bsdf` injection block reads the never-bound loop variable `raw_name`),
contradicting the claim that this step cannot fail. -/
theorem c2_zero_param_shape_crash :
    render_class ⟨"Foo", "foo", "u", []⟩ "Shapes" =
      Except.error "NameError: name raw_name is not defined" := by
  rfl

/-- C3: for every `Transform` and every interpretation of the native
library's single-op transforms, `to_mi` — which starts from the identity and
left-composes each recorded op's transform onto the running result — applies
the ops to a point in the order they were appended: the first-appended op is
applied first. -/
theorem c3_to_mi_applies_ops_in_append_order (piece : MiOp → Point → Point)
    (t : Transform) (q : Point) :
    t.to_mi piece q = t.ops.foldl (fun r op => piece op r) q := by
  unfold Transform.to_mi
  exact foldl_comp_apply piece t.ops (fun q => q) q

/-- The plugin section of claim C4's failing input: a shape section with a
single required parameter row and no row normalizing to `bsdf`. -/
def sphereSection : SectionSpec :=
  ⟨"Sphere", "sphere", "u", [⟨"radius", "float", "Sphere radius", "required"⟩]⟩

/-- C4: on a shape-category section with no `bsdf` parameter, `render_class`
does append exactly one synthetic optional `bsdf` parameter of
plugin-reference type, but its documented description is NOT the fixed text
"surface scattering model": the emitted doc line re-interpolates the last
processed row (`radius`), and no doc line mentions a scattering model at
all. -/
theorem c4_bsdf_doc_line_wrong :
    render_class sphereSection "Shapes" = Except.ok
      { cls := "Sphere", slug := "sphere",
        docs := ["        - radius (float): [D] Sphere radius",
                 "        - radius (float): [[D]] Sphere radius"],
        fields := ["    radius: float", "    bsdf: Optional[Plugin] = None"],
        ctorArgs := ["radius: float", "id: Optional[str] = None",
                     "bsdf: Optional[Plugin] = None"],
        assigns := ["        self.id = id", "        self.radius = radius",
                    "        self.bsdf = bsdf"] } ∧
    (∀ l ∈ ["        - radius (float): [D] Sphere radius",
            "        - radius (float): [[D]] Sphere radius"],
      hasSub l "scattering" = false) := by
  constructor
  · rfl
  · decide

/-- C6: `map_type` is a total function applying its rules in fixed priority
order, first match wins: "Float" maps to the float type, "Integer" to int,
"Boolean or string" to bool (the boolean rule outranks the string rule), and
empty or unmatched text maps to the plugin-reference default. -/
theorem c6_map_type_rules :
    map_type "Float" = "float" ∧ map_type "Integer" = "int" ∧
    map_type "Boolean or string" = "bool" ∧ map_type "" = "Plugin" ∧
    map_type "Foo" = "Plugin" := by
  refine ⟨rfl, rfl, rfl, rfl, rfl⟩

/-- C5: whenever `render_class` succeeds, the synthesized field declarations
and the constructor argument list place every required parameter before
every optional parameter, each group preserving its original encounter
order, with the `id` argument between the required and optional groups in
the constructor (the injected shape `bsdf`, when present, is appended after
the optional group). -/
theorem c5_required_before_optional (spec : SectionSpec) (cat : String)
    (rc : RenderedClass) (h : render_class spec cat = Except.ok rc) :
    rc.ctorArgs =
      ((encounterEntries spec.params).filter (fun e => e.required)).map ctorDeclOf ++
        ["id: Optional[str] = None"] ++
        (((encounterEntries spec.params).filter (fun e => !e.required)).map ctorDeclOf ++
          (if bsdfInjected spec.params cat then ["bsdf: Optional[Plugin] = None"] else [])) ∧
    rc.fields =
      (let fl :=
        ((encounterEntries spec.params).filter (fun e => e.required)).map fieldDeclOf ++
          (((encounterEntries spec.params).filter (fun e => !e.required)).map fieldDeclOf ++
            (if bsdfInjected spec.params cat then ["    bsdf: Optional[Plugin] = None"]
             else []));
       if fl.isEmpty then ["    pass"] else fl) := by
  rw [render_class_eq] at h
  obtain ⟨hreqF, hoptF, hreqC, hoptC, hseen⟩ := projOK_rowFold spec.params initState
  set st := spec.params.foldl doRow initState with hst
  have hreqF' : st.reqF = ((encounterEntries spec.params).filter
      (fun e => e.required)).map fieldDeclOf := by
    simpa [initState, encounterEntries, entriesOf] using hreqF
  have hoptF' : st.optF = ((encounterEntries spec.params).filter
      (fun e => !e.required)).map fieldDeclOf := by
    simpa [initState, encounterEntries, entriesOf] using hoptF
  have hreqC' : st.reqC = ((encounterEntries spec.params).filter
      (fun e => e.required)).map ctorDeclOf := by
    simpa [initState, encounterEntries, entriesOf] using hreqC
  have hoptC' : st.optC = ((encounterEntries spec.params).filter
      (fun e => !e.required)).map ctorDeclOf := by
    simpa [initState, encounterEntries, entriesOf] using hoptC
  have hseen' : st.seen = (entriesOf spec.params []).2 := by
    simpa [initState, entriesOf] using hseen
  have hbi : bsdfInjected spec.params cat =
      (hasStart (pyLower cat) "shape" && !st.seen.contains "bsdf") := by
    rw [bsdfInjected, hseen']
  by_cases hc : (hasStart (pyLower cat) "shape" && !st.seen.contains "bsdf") = true
  · rw [if_pos hc] at h
    cases hraw : st.lastRaw with
    | none => rw [hraw] at h; exact absurd h (by simp)
    | some raw =>
      cases hp : st.lastP with
      | none => rw [hraw, hp] at h; exact absurd h (by simp)
      | some p =>
        cases hms : st.lastMarker with
        | none => rw [hraw, hp, hms] at h; exact absurd h (by simp)
        | some ms =>
          rw [hraw, hp, hms] at h
          simp only [Except.ok.injEq] at h
          subst h
          rw [hbi, hc]
          constructor
          · simp [finishState, injectBsdf, hreqC', hoptC']
          · simp only [finishState, injectBsdf, hreqF', hoptF']
            have hne : ((((encounterEntries spec.params).filter
                (fun e => e.required)).map fieldDeclOf) ++
                ((((encounterEntries spec.params).filter
                  (fun e => !e.required)).map fieldDeclOf) ++
                  ["    bsdf: Optional[Plugin] = None"])).isEmpty = false := by
              simp
            simp [hne]
  · rw [if_neg hc] at h
    simp only [Except.ok.injEq] at h
    subst h
    rw [hbi]
    simp only [hc, Bool.false_eq_true, if_false]
    constructor
    · simp [finishState, hreqC', hoptC']
    · simp only [finishState, hreqF', hoptF', List.append_nil, List.append_assoc]
      split <;> rfl

/-- The plugin section used to witness C5: one required parameter and two
optional ones (the latter via a comma-joined alias pair). -/
def diffuseSection : SectionSpec :=
  ⟨"Diffuse", "diffuse", "u",
   [⟨"reflectance", "spectrum or texture", "Reflectance", "required"⟩,
    ⟨"alpha, alpha_u", "float", "Roughness", "P, ∂, D"⟩]⟩

/-- The class `render_class` synthesizes for `diffuseSection` in category
`"Bsdfs"`. -/
def rcDiffuse : RenderedClass :=
  { cls := "Diffuse", slug := "diffuse",
    docs := ["        - reflectance (spectrum or texture): [D] Reflectance",
             "        - alpha (float): [P | ∂ | D] Roughness",
             "        - alpha_u (float): [P | ∂ | D] Roughness"],
    fields := ["    reflectance: Union[List[float], Plugin]",
               "    alpha: Optional[float] = None",
               "    alpha_u: Optional[float] = None"],
    ctorArgs := ["reflectance: Union[List[float], Plugin]",
                 "id: Optional[str] = None", "alpha: Optional[float] = None",
                 "alpha_u: Optional[float] = None"],
    assigns := ["        self.id = id", "        self.reflectance = reflectance",
                "        self.alpha = alpha", "        self.alpha_u = alpha_u"] }

/-- C5 witness: a concrete successful synthesis on which the ordering
property is evaluated. -/
theorem c5_required_before_optional_witness :
    render_class diffuseSection "Bsdfs" = Except.ok rcDiffuse ∧
    (rcDiffuse.ctorArgs =
      ((encounterEntries diffuseSection.params).filter
          (fun e => e.required)).map ctorDeclOf ++
        ["id: Optional[str] = None"] ++
        (((encounterEntries diffuseSection.params).filter
            (fun e => !e.required)).map ctorDeclOf ++
          (if bsdfInjected diffuseSection.params "Bsdfs" then
            ["bsdf: Optional[Plugin] = None"] else [])) ∧
    rcDiffuse.fields =
      (let fl :=
        ((encounterEntries diffuseSection.params).filter
            (fun e => e.required)).map fieldDeclOf ++
          (((encounterEntries diffuseSection.params).filter
              (fun e => !e.required)).map fieldDeclOf ++
            (if bsdfInjected diffuseSection.params "Bsdfs" then
              ["    bsdf: Optional[Plugin] = None"] else []));
       if fl.isEmpty then ["    pass"] else fl)) :=
  ⟨by rfl, c5_required_before_optional diffuseSection "Bsdfs" rcDiffuse (by rfl)⟩

/-- The empty scene at `RPlugin`. -/
def emptySceneR : Scene RPlugin := sceneNew

/-- C7: an asset added with unset id receives the identifier
`"asset_" + (current asset count + 1)` at the moment of insertion, and
adding three id-less assets to an empty `Scene` (or `SceneBuilder`) yields
identifiers `asset_1`, `asset_2`, `asset_3` in insertion order. -/
theorem c7_asset_auto_naming :
    (∀ (s : Scene RPlugin) (p : RPlugin), p.id = none →
      ((s.add_asset p).2).id = "asset_" ++ toString (s.assets.length + 1)) ∧
    ((((emptySceneR.add_asset ⟨"a", none⟩).1.add_asset ⟨"b", none⟩).1.add_asset
        ⟨"c", none⟩).1.assets =
      [("asset_1", ⟨"a", some "asset_1"⟩), ("asset_2", ⟨"b", some "asset_2"⟩),
       ("asset_3", ⟨"c", some "asset_3"⟩)]) ∧
    ((emptySceneR.add_asset ⟨"a", none⟩).2 = ⟨"asset_1"⟩) ∧
    (((emptySceneR.add_asset ⟨"a", none⟩).1.add_asset ⟨"b", none⟩).2 = ⟨"asset_2"⟩) ∧
    ((((emptySceneR.add_asset ⟨"a", none⟩).1.add_asset ⟨"b", none⟩).1.add_asset
        ⟨"c", none⟩).2 = ⟨"asset_3"⟩) ∧
    (((SceneBuilder.new.asset ⟨"a", none⟩).asset ⟨"b", none⟩).asset ⟨"c", none⟩).assets =
      [("asset_1", ⟨"a", some "asset_1"⟩), ("asset_2", ⟨"b", some "asset_2"⟩),
       ("asset_3", ⟨"c", some "asset_3"⟩)] := by
  refine ⟨?_, by decide, by decide, by decide, by decide, by decide⟩
  intro s p h
  simp [Scene.add_asset, h]

/-- C7 witness: the per-insertion identifier formula applied to a concrete
id-less plugin and the empty scene. -/
theorem c7_asset_auto_naming_witness :
    ((emptySceneR.add_asset ⟨"a", none⟩).2).id =
      "asset_" ++ toString (emptySceneR.assets.length + 1) :=
  c7_asset_auto_naming.1 emptySceneR ⟨"a", none⟩ rfl

/-- C9: within one plugin's synthesis, the accepted parameter list is the
first-occurrence-wins deduplication of the raw candidate list (rows and
aliases, flag-filtered and normalized, in encounter order) — later
occurrences of an already-seen identifier are dropped without renumbering —
and hence never contains two entries with the same identifier. -/
theorem c9_dedup_first_wins (params : List ParamRow) :
    encounterEntries params = (dedupGo (rawEntries params) []).1 ∧
    ((encounterEntries params).map (fun e => e.nm)).Nodup := by
  constructor
  · have h := entriesOf_eq_dedup params []
    simpa [encounterEntries] using congrArg Prod.fst h
  · have h := dedupGo_nodup (rawEntries params) []
    rw [show encounterEntries params = (dedupGo (rawEntries params) []).1 by
      have h2 := entriesOf_eq_dedup params []
      simpa [encounterEntries] using congrArg Prod.fst h2]
    exact h.1

/-- `noKey d k`: no entry of the association list has key `k`. -/
def noKey {P : Type} (d : List (String × P)) (k : String) : Prop :=
  ∀ kv ∈ d, kv.1 ≠ k

/-- `noKeys d ks`: no entry of the association list has a key in `ks`. -/
def noKeys {P : Type} (d : List (String × P)) (ks : List String) : Prop :=
  ∀ kv ∈ d, kv.1 ∉ ks

instance {P : Type} (d : List (String × P)) (k : String) : Decidable (noKey d k) :=
  List.decidableBAll _ d

instance {P : Type} (d : List (String × P)) (ks : List String) :
    Decidable (noKeys d ks) :=
  List.decidableBAll _ d

/-- C8, amended: for every scene with exactly one sensor whose four
name-keyed maps contain no entry keyed `"sensor"`, `to_dict` binds
`"sensor"` to the serialization of that sensor; for every scene with two
sensors whose maps contain no entry keyed `"sensor"`, `"sensor_0"` or
`"sensor_1"`, `to_dict` binds `"sensor_0"` and `"sensor_1"` to the
serializations in append order and has no `"sensor"` entry.  (The
map-collision provisos are forced by the counterexample: a map entry keyed
`"sensor"` overwrites the sensor entry, last write wins.) -/
theorem c8_sensor_entries {P : Type} (s : Scene P) :
    (∀ x : P, s.sensors = [x] → noKey s.shapes "sensor" → noKey s.emitters "sensor" →
      noKey s.media "sensor" → noKey s.assets "sensor" →
      dget s.to_dict "sensor" = some (Value.ser x)) ∧
    (∀ x y : P, s.sensors = [x, y] →
      noKeys s.shapes ["sensor", "sensor_0", "sensor_1"] →
      noKeys s.emitters ["sensor", "sensor_0", "sensor_1"] →
      noKeys s.media ["sensor", "sensor_0", "sensor_1"] →
      noKeys s.assets ["sensor", "sensor_0", "sensor_1"] →
      dget s.to_dict "sensor_0" = some (Value.ser x) ∧
      dget s.to_dict "sensor_1" = some (Value.ser y) ∧
      dget s.to_dict "sensor" = none) := by
  constructor
  · intro x hs h1 h2 h3 h4
    unfold Scene.to_dict
    rw [hs]
    dsimp only
    cases hid : s.id with
    | some i =>
      rw [dget_dput_ne _ _ (by decide : ("id" : String) ≠ "sensor"),
          dget_fold_serdput_ne _ s.assets _ h4,
          dget_fold_serdput_ne _ s.media _ h3,
          dget_fold_serdput_ne _ s.emitters _ h2,
          dget_fold_serdput_ne _ s.shapes _ h1,
          dget_dput_self]
    | none =>
      rw [dget_fold_serdput_ne _ s.assets _ h4,
          dget_fold_serdput_ne _ s.media _ h3,
          dget_fold_serdput_ne _ s.emitters _ h2,
          dget_fold_serdput_ne _ s.shapes _ h1,
          dget_dput_self]
  · intro x y hs h1 h2 h3 h4
    have k1 : ∀ kv ∈ s.shapes, kv.1 ≠ "sensor" :=
      fun kv hkv heq => h1 kv hkv (by simp [heq])
    have k2 : ∀ kv ∈ s.emitters, kv.1 ≠ "sensor" :=
      fun kv hkv heq => h2 kv hkv (by simp [heq])
    have k3 : ∀ kv ∈ s.media, kv.1 ≠ "sensor" :=
      fun kv hkv heq => h3 kv hkv (by simp [heq])
    have k4 : ∀ kv ∈ s.assets, kv.1 ≠ "sensor" :=
      fun kv hkv heq => h4 kv hkv (by simp [heq])
    have k1a : ∀ kv ∈ s.shapes, kv.1 ≠ "sensor_0" :=
      fun kv hkv heq => h1 kv hkv (by simp [heq])
    have k2a : ∀ kv ∈ s.emitters, kv.1 ≠ "sensor_0" :=
      fun kv hkv heq => h2 kv hkv (by simp [heq])
    have k3a : ∀ kv ∈ s.media, kv.1 ≠ "sensor_0" :=
      fun kv hkv heq => h3 kv hkv (by simp [heq])
    have k4a : ∀ kv ∈ s.assets, kv.1 ≠ "sensor_0" :=
      fun kv hkv heq => h4 kv hkv (by simp [heq])
    have k1b : ∀ kv ∈ s.shapes, kv.1 ≠ "sensor_1" :=
      fun kv hkv heq => h1 kv hkv (by simp [heq])
    have k2b : ∀ kv ∈ s.emitters, kv.1 ≠ "sensor_1" :=
      fun kv hkv heq => h2 kv hkv (by simp [heq])
    have k3b : ∀ kv ∈ s.media, kv.1 ≠ "sensor_1" :=
      fun kv hkv heq => h3 kv hkv (by simp [heq])
    have k4b : ∀ kv ∈ s.assets, kv.1 ≠ "sensor_1" :=
      fun kv hkv heq => h4 kv hkv (by simp [heq])
    unfold Scene.to_dict
    rw [hs]
    dsimp only
    have hfold : ∀ d : List (String × Value P),
        ([x, y].enum.foldl
          (fun acc ix => dput acc ("sensor_" ++ toString ix.1) (Value.ser ix.2)) d) =
          dput (dput d "sensor_0" (Value.ser x)) "sensor_1" (Value.ser y) := by
      intro d
      show dput (dput d ("sensor_" ++ toString 0) (Value.ser x))
        ("sensor_" ++ toString 1) (Value.ser y) = _
      have h0 : ("sensor_" ++ toString (0 : Nat)) = "sensor_0" := rfl
      have h1 : ("sensor_" ++ toString (1 : Nat)) = "sensor_1" := rfl
      rw [h0, h1]
    rw [hfold]
    refine ⟨?_, ?_, ?_⟩
    · cases hid : s.id with
      | some i =>
        rw [dget_dput_ne _ _ (by decide : ("id" : String) ≠ "sensor_0"),
            dget_fold_serdput_ne _ s.assets _ k4a,
            dget_fold_serdput_ne _ s.media _ k3a,
            dget_fold_serdput_ne _ s.emitters _ k2a,
            dget_fold_serdput_ne _ s.shapes _ k1a,
            dget_dput_ne _ _ (by decide : ("sensor_1" : String) ≠ "sensor_0"),
            dget_dput_self]
      | none =>
        rw [dget_fold_serdput_ne _ s.assets _ k4a,
            dget_fold_serdput_ne _ s.media _ k3a,
            dget_fold_serdput_ne _ s.emitters _ k2a,
            dget_fold_serdput_ne _ s.shapes _ k1a,
            dget_dput_ne _ _ (by decide : ("sensor_1" : String) ≠ "sensor_0"),
            dget_dput_self]
    · cases hid : s.id with
      | some i =>
        rw [dget_dput_ne _ _ (by decide : ("id" : String) ≠ "sensor_1"),
            dget_fold_serdput_ne _ s.assets _ k4b,
            dget_fold_serdput_ne _ s.media _ k3b,
            dget_fold_serdput_ne _ s.emitters _ k2b,
            dget_fold_serdput_ne _ s.shapes _ k1b,
            dget_dput_self]
      | none =>
        rw [dget_fold_serdput_ne _ s.assets _ k4b,
            dget_fold_serdput_ne _ s.media _ k3b,
            dget_fold_serdput_ne _ s.emitters _ k2b,
            dget_fold_serdput_ne _ s.shapes _ k1b,
            dget_dput_self]
    · have hbase : ∀ vi : Value P,
          dget (dput [("type", Value.str "scene")] "integrator" vi) "sensor" = none := by
        intro vi
        rw [dget_dput_ne _ _ (by decide : ("integrator" : String) ≠ "sensor")]
        rfl
      cases hid : s.id with
      | some i =>
        rw [dget_dput_ne _ _ (by decide : ("id" : String) ≠ "sensor"),
            dget_fold_serdput_ne _ s.assets _ k4,
            dget_fold_serdput_ne _ s.media _ k3,
            dget_fold_serdput_ne _ s.emitters _ k2,
            dget_fold_serdput_ne _ s.shapes _ k1,
            dget_dput_ne _ _ (by decide : ("sensor_1" : String) ≠ "sensor"),
            dget_dput_ne _ _ (by decide : ("sensor_0" : String) ≠ "sensor")]
        cases hint : s.integrator with
        | some integ => exact hbase _
        | none => rfl
      | none =>
        rw [dget_fold_serdput_ne _ s.assets _ k4,
            dget_fold_serdput_ne _ s.media _ k3,
            dget_fold_serdput_ne _ s.emitters _ k2,
            dget_fold_serdput_ne _ s.shapes _ k1,
            dget_dput_ne _ _ (by decide : ("sensor_1" : String) ≠ "sensor"),
            dget_dput_ne _ _ (by decide : ("sensor_0" : String) ≠ "sensor")]
        cases hint : s.integrator with
        | some integ => exact hbase _
        | none => rfl

/-- The scene of claim C8's counterexample: one sensor, and a shape stored
under the map key `"sensor"`. -/
def sceneCollide : Scene RPlugin :=
  ⟨none, [⟨"perspective", none⟩], [("sensor", ⟨"sphere", none⟩)], [], [], [], none⟩

/-- C8, counterexample: on a scene containing exactly one sensor but also a
shape keyed `"sensor"`, `to_dict()["sensor"]` is the serialization of the
shape, not of the sensor — the claim fails as stated for such scenes. -/
theorem c8_counterexample :
    sceneCollide.sensors = [⟨"perspective", none⟩] ∧
    dget sceneCollide.to_dict "sensor" ≠
      some (Value.ser (⟨"perspective", none⟩ : RPlugin)) := by
  constructor
  · rfl
  · decide

/-- A collision-free one-sensor scene for the C8 witness. -/
def sceneOneOk : Scene RPlugin :=
  ⟨some ⟨"path", none⟩, [⟨"perspective", none⟩], [("cube", ⟨"cube", none⟩)],
   [], [], [], some "sc"⟩

/-- A collision-free two-sensor scene for the C8 witness. -/
def sceneTwoOk : Scene RPlugin :=
  ⟨none, [⟨"p1", none⟩, ⟨"p2", none⟩], [], [], [], [("env", ⟨"envmap", none⟩)], none⟩

/-- C8 witness: the amended sensor-entry property evaluated on concrete
one- and two-sensor scenes. -/
theorem c8_sensor_entries_witness :
    dget sceneOneOk.to_dict "sensor" =
      some (Value.ser (⟨"perspective", none⟩ : RPlugin)) ∧
    (dget sceneTwoOk.to_dict "sensor_0" = some (Value.ser (⟨"p1", none⟩ : RPlugin)) ∧
     dget sceneTwoOk.to_dict "sensor_1" = some (Value.ser (⟨"p2", none⟩ : RPlugin)) ∧
     dget sceneTwoOk.to_dict "sensor" = none) :=
  ⟨(c8_sensor_entries sceneOneOk).1 _ rfl (by decide) (by decide) (by decide)
      (by decide),
   (c8_sensor_entries sceneTwoOk).2 _ _ rfl (by decide) (by decide) (by decide)
      (by decide)⟩

/-- The scene state of claim C10: one asset already stored under the
explicit identifier `asset_2` while the asset count is 1. -/
def sceneWithAsset2 : Scene RPlugin :=
  ⟨none, [], [], [], [], [("asset_2", ⟨"sphere", some "asset_2"⟩)], none⟩

/-- The builder state of claim C10. -/
def builderWithAsset2 : SceneBuilder :=
  ⟨none, [], [], [], [], [("asset_2", ⟨"sphere", some "asset_2"⟩)], none⟩

/-- C10: asset auto-naming can silently overwrite: on a scene whose assets
map already holds an asset under the explicit key `asset_2` (count 1),
adding an id-less plugin assigns it the same identifier `asset_2`, replaces
the stored asset under that key, and the returned `Ref` names the new
plugin; `SceneBuilder.asset` behaves the same. -/
theorem c10_auto_name_overwrites :
    (sceneWithAsset2.add_asset ⟨"cube", none⟩).1.assets =
      [("asset_2", ⟨"cube", some "asset_2"⟩)] ∧
    (sceneWithAsset2.add_asset ⟨"cube", none⟩).2 = ⟨"asset_2"⟩ ∧
    (builderWithAsset2.asset ⟨"cube", none⟩).assets =
      [("asset_2", ⟨"cube", some "asset_2"⟩)] := by
  decide

end Msd
